import Mathlib

/-!
Shallow embedding of the carloswimmer/autocomplete repository: the backend
seed script and SQL schema (the code under src/), and the Query Controller
core (Debounce Gate, Result Cache, Request Sequencer, Selection State
Machine, Controller) which the repository specifies but whose frontend
implementation files are not part of the source tree, so those components
are modelled from the spec.
-/

namespace Autocomplete

/-- Modelled from the spec: the frontend type files are not under src/; the
spec (§3) and the plan's type declarations fix the network-boundary result
record `SearchResult` as id, title, optional description, optional image. -/
structure SearchResult where
  id : String
  title : String
  description : Option String
  image : Option String
  deriving DecidableEq, Repr

/-- Modelled from the spec: a page of results as produced by the network
boundary (§3) — results, total, page. -/
structure ResultPage where
  results : List SearchResult
  total : Nat
  page : Nat
  deriving DecidableEq, Repr

/-- Modelled from the spec: the JSON body shape of the search endpoint (§6)
— results, total, page. -/
structure SearchResponse where
  results : List SearchResult
  total : Nat
  page : Nat
  deriving DecidableEq, Repr

/-- The `type` column of `search_items`:
`CHECK (type IN ('film', 'television', 'video_game'))`. -/
inductive ItemType
  | film
  | television
  | video_game
  deriving DecidableEq, Repr

/-- One entry of `seed.json` as declared by `interface SeedItem` in
`backend/src/database/seed.ts`: title, nullable year, type, role (a string,
possibly empty). -/
structure SeedItem where
  title : String
  year : Option Int
  type : ItemType
  role : String
  deriving DecidableEq, Repr

/-- A row of the `search_items` table (schema in the SQL source): serial id,
non-null title, nullable year, non-null type, nullable role.  The
`search_vector` and `created_at` columns are derived/defaulted and carry no
seeded data. -/
structure SearchItemRow where
  id : Nat
  title : String
  year : Option Int
  type : ItemType
  role : Option String
  deriving DecidableEq, Repr

/-- The value bound to `$4` in the seed INSERT: `item.role || null`.  For a
string, JavaScript `||` yields the right operand exactly when the string is
empty (the only falsy string), so an empty role is stored as NULL. -/
def roleOrNull (role : String) : Option String :=
  if role = "" then none else some role

/-- The `search_items` table state: its rows plus the serial-id counter
(`RESTART IDENTITY` resets the counter to 1). -/
structure TableState where
  rows : List SearchItemRow
  nextId : Nat
  deriving DecidableEq, Repr

/-- `TRUNCATE TABLE search_items RESTART IDENTITY CASCADE`: all rows removed,
serial counter back to 1. -/
def truncateRestartIdentity (_ : TableState) : TableState :=
  { rows := [], nextId := 1 }

/-- One `INSERT INTO search_items (title, year, type, role) VALUES
($1,$2,$3,$4)` from the seed loop.  The `ON CONFLICT DO NOTHING` clause can
never fire here: the only unique constraint of `search_items` is the serial
primary key, and the counter hands out fresh ids. -/
def insertItem (t : TableState) (item : SeedItem) : TableState :=
  { rows := t.rows ++
      [{ id := t.nextId, title := item.title, year := item.year,
         type := item.type, role := roleOrNull item.role }],
    nextId := t.nextId + 1 }

/-- `seedDatabase` from `backend/src/database/seed.ts`, restricted to its
database effect: truncate with identity restart, then insert every item of
`seed.json` in order. -/
def seedDatabase (t : TableState) (seedData : List SeedItem) : TableState :=
  seedData.foldl insertItem (truncateRestartIdentity t)

/-- The row the seed loop produces for `item` when the serial counter stands
at `id`. -/
def mkRow (id : Nat) (item : SeedItem) : SearchItemRow :=
  { id := id, title := item.title, year := item.year,
    type := item.type, role := roleOrNull item.role }

/-- The rows the seed loop produces for `items` with the serial counter
starting at `n`. -/
def seedRowsFrom (n : Nat) : List SeedItem → List SearchItemRow
  | [] => []
  | item :: rest => mkRow n item :: seedRowsFrom (n + 1) rest

theorem foldl_insertItem (items : List SeedItem) :
    ∀ rows0 n0, items.foldl insertItem ⟨rows0, n0⟩ =
      ⟨rows0 ++ seedRowsFrom n0 items, n0 + items.length⟩ := by
  induction items with
  | nil => intro rows0 n0; simp [seedRowsFrom]
  | cons item rest ih =>
      intro rows0 n0
      simp only [List.foldl_cons, insertItem, seedRowsFrom]
      rw [ih]
      simp [List.append_assoc, mkRow]
      omega

theorem seedDatabase_rows (t : TableState) (items : List SeedItem) :
    seedDatabase t items = ⟨seedRowsFrom 1 items, 1 + items.length⟩ := by
  simp [seedDatabase, truncateRestartIdentity]
  rw [foldl_insertItem]
  simp

theorem seedRowsFrom_mem {items : List SeedItem} {r : SearchItemRow} :
    ∀ {n : Nat}, r ∈ seedRowsFrom n items →
      ∃ item ∈ items, r = mkRow r.id item := by
  induction items with
  | nil => intro n h; simp [seedRowsFrom] at h
  | cons item rest ih =>
      intro n h
      simp only [seedRowsFrom, List.mem_cons] at h
      rcases h with h | h
      · exact ⟨item, List.mem_cons_self .., by simp [h, mkRow]⟩
      · obtain ⟨it, hmem, heq⟩ := ih h
        exact ⟨it, List.mem_cons_of_mem _ hmem, heq⟩

/-- Modelled from the spec: one Result Cache slot — the frontend
`utils/cache.ts` file is not under src/; spec §3 fixes the shape of a
cache entry as a page plus the instant it was fetched. -/
structure CacheEntry where
  page : ResultPage
  fetchedAt : Nat
  deriving DecidableEq, Repr

/-- Modelled from the spec: the Result Cache (§4.2) — an in-memory
associative container from normalized query to `CacheEntry`, with a TTL and
a bounded capacity.  The entry list is kept newest-first. -/
structure ResultCache where
  entries : List (String × CacheEntry)
  ttl : Nat
  capacity : Nat
  deriving DecidableEq, Repr

/-- Modelled from the spec: removes one entry with the oldest `fetchedAt`
(LRU eviction per §4.2). -/
def dropOldest (es : List (String × CacheEntry)) : List (String × CacheEntry) :=
  match (es.map (fun e => e.2.fetchedAt)).min? with
  | none => es
  | some m => es.eraseP (fun e => e.2.fetchedAt == m)

/-- Modelled from the spec: `put(query, page)` (§4.2) — overwrite any entry
for that exact normalized query, reset `fetchedAt` to now, and when the
insertion would exceed capacity, first evict the entry with the oldest
`fetchedAt`. -/
def cachePut (c : ResultCache) (q : String) (page : ResultPage) (now : Nat) :
    ResultCache :=
  let kept := c.entries.filter (fun e => !(e.1 == q))
  let kept := if c.capacity ≤ kept.length then dropOldest kept else kept
  { c with entries := (q, { page := page, fetchedAt := now }) :: kept }

/-- Modelled from the spec: `get(query)` (§4.2) — a miss when no entry
exists or when the entry's age exceeds the TTL; an expired entry found
during `get` is evicted as a side effect.  Returns the hit (if any) and the
cache after the call. -/
def cacheGet (c : ResultCache) (q : String) (now : Nat) :
    Option ResultPage × ResultCache :=
  match c.entries.find? (fun e => e.1 == q) with
  | none => (none, c)
  | some e =>
      if c.ttl < now - e.2.fetchedAt then
        (none, { c with entries := c.entries.filter (fun x => !(x.1 == q)) })
      else
        (some e.2.page, c)

theorem countP_key_filter_ne (entries : List (String × CacheEntry)) (q : String) :
    (entries.filter (fun e => !(e.1 == q))).countP (fun e => e.1 == q) = 0 := by
  rw [List.countP_eq_zero]
  intro a ha
  have := (List.mem_filter.mp ha).2
  simp at this
  simp [this]

theorem countP_dropOldest_le (es : List (String × CacheEntry))
    (p : String × CacheEntry → Bool) :
    (dropOldest es).countP p ≤ es.countP p := by
  unfold dropOldest
  cases (es.map (fun e => e.2.fetchedAt)).min? with
  | none => exact le_refl _
  | some m => exact (List.eraseP_sublist es).countP_le p

/-- Modelled from the spec: the Request Sequencer state (§3, §4.3) — the
`latestToken` minted so far (tokens are monotonically increasing integers,
one per query submission) and the response currently applied to UI state,
recorded as the pair of its token and its page. -/
structure SeqState where
  latestToken : Nat
  applied : Option (Nat × ResultPage)
  deriving DecidableEq, Repr

/-- Modelled from the spec: issuing a query (§4.3) — mint a new token and
record it as `latestToken`; the minted token is returned so the eventual
completion can be checked against `latestToken`. -/
def seqIssue (s : SeqState) : SeqState × Nat :=
  ({ s with latestToken := s.latestToken + 1 }, s.latestToken + 1)

/-- Modelled from the spec: a response completing (§4.3) — compare the token
captured at issue time against the current `latestToken`; if unequal,
discard the result and do not touch UI state; if equal, apply it. -/
def seqOnResponse (s : SeqState) (token : Nat) (page : ResultPage) : SeqState :=
  if token = s.latestToken then { s with applied := some (token, page) } else s

/-- Modelled from the spec: the `status` enum of `SelectionState` (§3). -/
inductive SelStatus
  | idle
  | loading
  | loaded
  | empty
  | error
  deriving DecidableEq, Repr

/-- Modelled from the spec: `SelectionState` (§3) — query, results, status,
`selectedIndex` (−1 = none), optional error message. -/
structure SelectionState where
  query : String
  results : List SearchResult
  status : SelStatus
  selectedIndex : Int
  errorMessage : Option String
  deriving DecidableEq, Repr

/-- Modelled from the spec: the events that drive the Selection State
Machine (§4.4): a new
`ResultPage` replacing `results` (response arrival or cache hit), arrow
keys, pointer hover, Enter, Escape, a query entering flight, a terminal
fetch failure, and the explicit clear to `Idle`. -/
inductive SelEvent
  | applyPage (p : ResultPage)
  | arrowDown
  | arrowUp
  | hover (i : Nat)
  | enter
  | escape
  | startLoading (q : String)
  | fail (msg : String)
  | clear
  deriving DecidableEq, Repr

/-- Modelled from the spec: navigation events are the arrow keys and
pointer hover; everything else (result replacement, commit, escape,
loading, failure, clear) is not. -/
def isNavEvent : SelEvent → Bool
  | .arrowDown => true
  | .arrowUp => true
  | .hover _ => true
  | _ => false

/-- Modelled from the spec: one transition of the Selection State Machine
(§4.4).  A new `ResultPage` unconditionally resets `selectedIndex` to −1 and
sets `Loaded`/`Empty` by emptiness; arrows apply only in `Loaded` with a
non-empty list and wrap at the bounds; hover selects an existing item's
index; Enter commits without moving the selection; Escape closes, keeping
the query text and resetting the selection; failure surfaces `Error` with a
message; clear returns to the cleared `Idle` state. -/
def selStep (s : SelectionState) : SelEvent → SelectionState
  | .applyPage p =>
      { s with results := p.results, selectedIndex := -1,
               status := if p.results.isEmpty then .empty else .loaded }
  | .arrowDown =>
      if s.status = .loaded ∧ s.results ≠ [] then
        { s with selectedIndex :=
            if (s.results.length : Int) ≤ s.selectedIndex + 1 then 0
            else s.selectedIndex + 1 }
      else s
  | .arrowUp =>
      if s.status = .loaded ∧ s.results ≠ [] then
        { s with selectedIndex :=
            if s.selectedIndex ≤ 0 then (s.results.length : Int) - 1
            else s.selectedIndex - 1 }
      else s
  | .hover i =>
      if s.status = .loaded ∧ i < s.results.length then
        { s with selectedIndex := (i : Int) }
      else s
  | .enter => s
  | .escape => { s with status := .idle, selectedIndex := -1 }
  | .startLoading q => { s with query := q, status := .loading }
  | .fail msg => { s with status := .error, errorMessage := some msg }
  | .clear =>
      { query := "", results := [], status := .idle, selectedIndex := -1,
        errorMessage := none }

/-- Modelled from the spec: the `SelectionState` a freshly constructed
widget starts from. -/
def initSelectionState : SelectionState :=
  { query := "", results := [], status := .idle, selectedIndex := -1,
    errorMessage := none }

/-- Modelled from the spec: runs the Selection State Machine over a
sequence of events. -/
def runSel (s : SelectionState) (evs : List SelEvent) : SelectionState :=
  evs.foldl selStep s

/-- Modelled from the spec: the `selectedIndex` invariant of §3 — always −1
or a valid index into `results`. -/
def SelInv (s : SelectionState) : Prop :=
  s.selectedIndex = -1 ∨
    (0 ≤ s.selectedIndex ∧ s.selectedIndex < s.results.length)

theorem selInv_step {s : SelectionState} (h : SelInv s) (e : SelEvent) :
    SelInv (selStep s e) := by
  cases e with
  | applyPage p => left; rfl
  | arrowDown =>
      simp only [selStep]
      split
      · rename_i hc
        have hlen : 0 < s.results.length := List.length_pos.mpr hc.2
        by_cases hw : (s.results.length : Int) ≤ s.selectedIndex + 1
        · right
          simp only [hw, if_pos]
          constructor
          · simp
          · simpa using hlen
        · right
          simp only [hw, if_neg, not_false_iff]
          push_neg at hw
          constructor
          · rcases h with h | h
            · simp [h]
            · omega
          · simpa using hw
      · exact h
  | arrowUp =>
      simp only [selStep]
      split
      · rename_i hc
        have hlen : 0 < s.results.length := List.length_pos.mpr hc.2
        by_cases hw : s.selectedIndex ≤ 0
        · right
          simp only [hw, if_pos]
          constructor
          · omega
          · omega
        · right
          simp only [hw, if_neg, not_false_iff]
          push_neg at hw
          rcases h with h | h
          · omega
          · omega
      · exact h
  | hover i =>
      simp only [selStep]
      split
      · rename_i hc
        right
        refine ⟨by simp, ?_⟩
        simp only []
        exact_mod_cast hc.2
      · exact h
  | enter => exact h
  | escape => left; rfl
  | startLoading q => exact h
  | fail msg => exact h
  | clear => left; rfl

theorem selInv_runSel {s : SelectionState} (h : SelInv s)
    (evs : List SelEvent) : SelInv (runSel s evs) := by
  induction evs generalizing s with
  | nil => exact h
  | cons e rest ih => exact ih (selInv_step h e)

/-- Modelled from the spec: the Debounce Gate (§4.1) — holds at most one
pending timer, recorded as the latest submitted query together with the
number of clock ticks still to elapse before it fires. -/
structure DebounceGate where
  delay : Nat
  pending : Option (String × Nat)
  deriving DecidableEq, Repr

/-- Modelled from the spec: the events the Debounce Gate reacts to — a
keystroke submission, one tick of the clock, and cancellation (widget
blur/close). -/
inductive DEvent
  | submit (q : String)
  | tick
  | cancel
  deriving DecidableEq, Repr

/-- Modelled from the spec: one step of the Debounce Gate (§4.1).  `submit`
cancels any pending timer and starts a new full-delay one for the new query;
`cancel` drops the pending timer; a tick counts the pending timer down, and
when it reaches the end the callback fires exactly once with the latest
submitted query (returned as the output). -/
def dgStep (g : DebounceGate) : DEvent → DebounceGate × Option String
  | .submit q => ({ g with pending := some (q, g.delay) }, none)
  | .cancel => ({ g with pending := none }, none)
  | .tick =>
      match g.pending with
      | none => (g, none)
      | some (q, 0) => ({ g with pending := none }, some q)
      | some (q, n + 1) => ({ g with pending := some (q, n) }, none)

/-- Modelled from the spec: runs the Debounce Gate over a sequence of
events, collecting every query the timer delivered downstream, in order. -/
def dgRun (g : DebounceGate) : List DEvent → DebounceGate × List String
  | [] => (g, [])
  | e :: es =>
      let r := dgStep g e
      let rest := dgRun r.1 es
      (rest.1, r.2.toList ++ rest.2)

/-- Modelled from the spec: a burst of keystrokes — each element is the
number of ticks that pass before that submission.  The burst is within
`debounceMs` when every gap is at most the gate's delay. -/
def burstEvents (b : List (Nat × String)) : List DEvent :=
  b.flatMap (fun p => List.replicate p.1 DEvent.tick ++ [DEvent.submit p.2])

/-- Modelled from the spec: the query of the last submission of a burst,
defaulting to `q0` for an empty burst. -/
def lastQuery (q0 : String) (b : List (Nat × String)) : String :=
  b.foldl (fun _ p => p.2) q0

theorem dgRun_append (g : DebounceGate) (es fs : List DEvent) :
    dgRun g (es ++ fs) =
      ((dgRun (dgRun g es).1 fs).1,
        (dgRun g es).2 ++ (dgRun (dgRun g es).1 fs).2) := by
  induction es generalizing g with
  | nil => simp [dgRun]
  | cons e rest ih => simp [dgRun, ih]

theorem dgRun_ticks_pending (d : Nat) (q : String) :
    ∀ n r, n ≤ r →
      dgRun ⟨d, some (q, r)⟩ (List.replicate n DEvent.tick) =
        (⟨d, some (q, r - n)⟩, []) := by
  intro n
  induction n with
  | zero => intro r _; simp [dgRun]
  | succ m ih =>
      intro r hr
      cases r with
      | zero => omega
      | succ r' =>
          simp only [List.replicate_succ, dgRun, dgStep]
          rw [ih r' (by omega)]
          simp [Option.toList, Nat.succ_sub_succ]

theorem dgRun_ticks_none (d : Nat) (n : Nat) :
    dgRun ⟨d, none⟩ (List.replicate n DEvent.tick) = (⟨d, none⟩, []) := by
  induction n with
  | zero => simp [dgRun]
  | succ m ih => simp only [List.replicate_succ, dgRun, dgStep]; simp [ih]

theorem dgRun_ticks_fires (d : Nat) (q : String) (r m : Nat) :
    dgRun ⟨d, some (q, r)⟩ (List.replicate (r + 1 + m) DEvent.tick) =
      (⟨d, none⟩, [q]) := by
  have hsplit : r + 1 + m = r + (1 + m) := by omega
  rw [hsplit, List.replicate_add, dgRun_append, dgRun_ticks_pending d q r r le_rfl]
  simp only [Nat.sub_self]
  have : (1 + m) = Nat.succ m := by omega
  rw [this]
  simp only [List.replicate_succ, dgRun, dgStep]
  rw [dgRun_ticks_none]
  simp [Option.toList]

theorem dgRun_burst (d : Nat) :
    ∀ (b : List (Nat × String)) (q1 : String),
      (∀ p ∈ b, p.1 ≤ d) →
      dgRun ⟨d, some (q1, d)⟩ (burstEvents b) =
        (⟨d, some (lastQuery q1 b, d)⟩, []) := by
  intro b
  induction b with
  | nil => intro q1 _; simp [burstEvents, dgRun, lastQuery]
  | cons p rest ih =>
      intro q1 hb
      have hp : p.1 ≤ d := hb p (List.mem_cons_self ..)
      have hbe : burstEvents (p :: rest) =
          List.replicate p.1 DEvent.tick ++
            (DEvent.submit p.2 :: burstEvents rest) := by
        simp [burstEvents, List.flatMap_cons]
      rw [hbe, dgRun_append, dgRun_ticks_pending d q1 p.1 d hp]
      have hrest := ih p.2 (fun x hx => hb x (List.mem_cons_of_mem _ hx))
      simp only [dgRun, dgStep, Option.toList, List.nil_append]
      rw [hrest]
      simp [lastQuery, List.foldl_cons]

/-- Modelled from the spec: the configuration surface accepted at
construction (§6), restricted to the fields the Controller core
consults. -/
structure AcConfig where
  apiUrl : String
  minQueryLength : Nat
  debounceMs : Nat
  maxResults : Nat
  cacheTtlMs : Nat
  cacheCapacity : Nat
  deriving DecidableEq, Repr

/-- Modelled from the spec: leading and trailing whitespace removed, on the
character list of the string. -/
def trimStr (s : String) : String :=
  ⟨((s.data.dropWhile (fun c => c.isWhitespace)).reverse.dropWhile
      (fun c => c.isWhitespace)).reverse⟩

/-- Modelled from the spec: every character lowered, on the character list
of the string. -/
def toLowerStr (s : String) : String :=
  ⟨s.data.map Char.toLower⟩

/-- Modelled from the spec: query normalization (§3) — trimmed,
case-folded. -/
def normalizeQuery (raw : String) : String :=
  toLowerStr (trimStr raw)

/-- Modelled from the spec: the Controller's owned state (§2, §4.5) — the
Result Cache, the Request Sequencer state, the `SelectionState`, and the
construction-time configuration. -/
structure AcController where
  cache : ResultCache
  seq : SeqState
  sel : SelectionState
  cfg : AcConfig
  deriving DecidableEq, Repr

/-- Modelled from the spec: the Controller's handling of a query delivered
by the Debounce Gate (§4.5).  Short text (normalized length below
`minQueryLength`) immediately transitions to the cleared `Idle` state,
bypassing network and cache entirely — no token is minted and no network
call is issued.  Otherwise the Result Cache is consulted first: a hit
transitions state synchronously with no `Loading` flicker; a miss
transitions to `Loading` and issues the query through the Request
Sequencer.  The second component is the token of the network call issued,
if any. -/
def handleQuery (c : AcController) (raw : String) (now : Nat) :
    AcController × Option Nat :=
  let q := normalizeQuery raw
  if q.length < c.cfg.minQueryLength then
    ({ c with sel := selStep c.sel .clear }, none)
  else
    match cacheGet c.cache q now with
    | (some page, cache1) =>
        ({ c with cache := cache1,
                  sel := selStep { c.sel with query := q } (.applyPage page) },
          none)
    | (none, cache1) =>
        let issued := seqIssue c.seq
        ({ c with cache := cache1, seq := issued.1,
                  sel := selStep c.sel (.startLoading q) },
          some issued.2)

/-- Modelled from the spec: the REST route handler that maps a stored
`search_items` row onto the network `SearchResult` shape is not under src/;
the spec (§3, §6) fixes the target shape `{id, title, description?, image?}`.
The serial id is rendered as the opaque string id, the title is carried
over, the searchable `role` text supplies the optional description, and the
schema stores no image, so `image` is absent. -/
def projectRow (r : SearchItemRow) : SearchResult :=
  { id := toString r.id, title := r.title, description := r.role,
    image := none }

/-- Modelled from the spec: the JSON body the search endpoint returns (§6)
for a list of matching rows — `{ results, total, page }` with every row
projected onto the `SearchResult` shape. -/
def mkSearchResponse (rows : List SearchItemRow) (total page : Nat) :
    SearchResponse :=
  { results := rows.map projectRow, total := total, page := page }

theorem roleOrNull_ne_some_empty (s : String) : roleOrNull s ≠ some "" := by
  unfold roleOrNull
  split
  · simp
  · rename_i h
    simp [h]

theorem seedRowsFrom_map_id (items : List SeedItem) :
    ∀ n, (seedRowsFrom n items).map (fun r => r.id) =
      List.range' n items.length := by
  induction items with
  | nil => intro n; simp [seedRowsFrom]
  | cons item rest ih =>
      intro n
      simp [seedRowsFrom, mkRow, List.range'_succ, ih]

/-- Claim C1: a response is applied to UI state iff its token equals the
controller's `latestToken` when it arrives, and otherwise it is silently
dropped; in particular, when Q is issued, then Q2 is issued, then Q2's
response arrives and is applied, a late response for Q leaves the state
derived from Q2 untouched, regardless of completion order. -/
theorem token_race_guard :
    (∀ (s : SeqState) (t : Nat) (p : ResultPage),
        t = s.latestToken →
          seqOnResponse s t p = { s with applied := some (t, p) }) ∧
    (∀ (s : SeqState) (t : Nat) (p : ResultPage),
        t ≠ s.latestToken → seqOnResponse s t p = s) ∧
    (∀ (s0 : SeqState) (p2 pQ : ResultPage),
        (seqIssue s0).2 ≠ (seqIssue (seqIssue s0).1).2 ∧
        (seqOnResponse (seqIssue (seqIssue s0).1).1
            (seqIssue (seqIssue s0).1).2 p2).applied =
          some ((seqIssue (seqIssue s0).1).2, p2) ∧
        seqOnResponse
            (seqOnResponse (seqIssue (seqIssue s0).1).1
              (seqIssue (seqIssue s0).1).2 p2)
            (seqIssue s0).2 pQ =
          seqOnResponse (seqIssue (seqIssue s0).1).1
            (seqIssue (seqIssue s0).1).2 p2) := by
  refine ⟨?_, ?_, ?_⟩
  · intro s t p ht
    simp [seqOnResponse, ht]
  · intro s t p ht
    simp [seqOnResponse, ht]
  · intro s0 p2 pQ
    refine ⟨by simp [seqIssue], ?_, ?_⟩
    · simp [seqIssue, seqOnResponse]
    · simp [seqIssue, seqOnResponse]

/-- Applies `token_race_guard` at a concrete sequencer state: a response
bearing the current `latestToken` is applied, and one bearing a stale token
leaves the state unchanged. -/
theorem token_race_guard_witness :
    seqOnResponse { latestToken := 5, applied := none } 5
        { results := [], total := 0, page := 1 } =
      { latestToken := 5,
        applied := some (5, { results := [], total := 0, page := 1 }) } ∧
    seqOnResponse { latestToken := 5, applied := none } 4
        { results := [], total := 0, page := 1 } =
      { latestToken := 5, applied := none } :=
  ⟨token_race_guard.1 { latestToken := 5, applied := none } 5
      { results := [], total := 0, page := 1 } rfl,
    token_race_guard.2.1 { latestToken := 5, applied := none } 4
      { results := [], total := 0, page := 1 } (by decide)⟩

/-- Claim C2: in every reachable `SelectionState`, `selectedIndex` is −1 or
a valid index into `results`; replacing the result list with a new
`ResultPage` always resets `selectedIndex` to −1; and no event other than an
explicit navigation event (arrow key or pointer hover) moves it off −1. -/
theorem selectedIndex_valid_or_none :
    (∀ evs : List SelEvent, SelInv (runSel initSelectionState evs)) ∧
    (∀ (s : SelectionState) (p : ResultPage),
        (selStep s (.applyPage p)).selectedIndex = -1) ∧
    (∀ (s : SelectionState) (e : SelEvent),
        isNavEvent e = false → s.selectedIndex = -1 →
          (selStep s e).selectedIndex = -1) := by
  refine ⟨fun evs => selInv_runSel (Or.inl rfl) evs, fun s p => rfl, ?_⟩
  intro s e hnav hidx
  cases e <;> simp_all [selStep, isNavEvent]

/-- Applies `selectedIndex_valid_or_none` at a concrete state and event:
`Enter` is not a navigation event and leaves a cleared selection at −1. -/
theorem selectedIndex_valid_or_none_witness :
    (selStep initSelectionState SelEvent.enter).selectedIndex = -1 :=
  selectedIndex_valid_or_none.2.2 initSelectionState SelEvent.enter rfl rfl

/-- Claim C3: a `SearchResult` is exactly its fields id, title, optional
description, optional image; the endpoint body is exactly
`{ results, total, page }`; and every stored `search_items` row projects
onto the `SearchResult` shape, keeping its id (as an opaque string) and
title. -/
theorem searchResult_shape :
    (∀ a b : SearchResult, a = b ↔
        a.id = b.id ∧ a.title = b.title ∧
          a.description = b.description ∧ a.image = b.image) ∧
    (∀ r s : SearchResponse, r = s ↔
        r.results = s.results ∧ r.total = s.total ∧ r.page = s.page) ∧
    (∀ row : SearchItemRow,
        (projectRow row).id = toString row.id ∧
          (projectRow row).title = row.title) ∧
    (∀ (rows : List SearchItemRow) (total page : Nat),
        (mkSearchResponse rows total page).results = rows.map projectRow ∧
          (mkSearchResponse rows total page).total = total ∧
          (mkSearchResponse rows total page).page = page) := by
  refine ⟨?_, ?_, ?_, ?_⟩
  · intro a b
    constructor
    · rintro rfl; exact ⟨rfl, rfl, rfl, rfl⟩
    · rintro ⟨h1, h2, h3, h4⟩
      cases a; cases b; simp_all
  · intro r s
    constructor
    · rintro rfl; exact ⟨rfl, rfl, rfl⟩
    · rintro ⟨h1, h2, h3⟩
      cases r; cases s; simp_all
  · intro row
    exact ⟨rfl, rfl⟩
  · intro rows total page
    exact ⟨rfl, rfl, rfl⟩

/-- Claim C4: `put(q, page)` immediately followed by `get(q)` returns
exactly `page` (immediacy makes the entry's age 0, so no TTL expiry can
intervene, and `put` never evicts the entry it just wrote); moreover `put`
leaves exactly one entry for `q`, holding `page` with `fetchedAt` reset to
now. -/
theorem cache_put_get_roundtrip (c : ResultCache) (q : String)
    (page : ResultPage) (now : Nat) :
    (cacheGet (cachePut c q page now) q now).1 = some page ∧
    (cachePut c q page now).entries.find? (fun e => e.1 == q) =
      some (q, { page := page, fetchedAt := now }) ∧
    (cachePut c q page now).entries.countP (fun e => e.1 == q) = 1 := by
  have hfind : (cachePut c q page now).entries.find? (fun e => e.1 == q) =
      some (q, { page := page, fetchedAt := now }) := by
    simp only [cachePut]
    exact List.find?_cons_of_pos _ (by simp)
  have hkept : (if c.capacity ≤
          (c.entries.filter (fun e => !(e.1 == q))).length
        then dropOldest (c.entries.filter (fun e => !(e.1 == q)))
        else c.entries.filter (fun e => !(e.1 == q))).countP
        (fun e => e.1 == q) = 0 := by
    have h2 := countP_key_filter_ne c.entries q
    split
    · have h1 := countP_dropOldest_le
        (c.entries.filter (fun e => !(e.1 == q))) (fun e => e.1 == q)
      omega
    · exact h2
  refine ⟨?_, hfind, ?_⟩
  · simp [cacheGet, hfind, Nat.sub_self]
  · simp only [cachePut, List.countP_cons, hkept]
    simp

/-- Claim C5: `get(q)` misses once the entry's age strictly exceeds the TTL
and, as a side effect of that same `get`, the expired entry is evicted; and
`get(q)` also misses, changing nothing, when no entry for `q` exists. -/
theorem cache_expiry_miss (c : ResultCache) (q : String) (now : Nat) :
    (∀ e, c.entries.find? (fun x => x.1 == q) = some e →
        c.ttl < now - e.2.fetchedAt →
        (cacheGet c q now).1 = none ∧
          (cacheGet c q now).2.entries.find? (fun x => x.1 == q) = none) ∧
    (c.entries.find? (fun x => x.1 == q) = none →
        cacheGet c q now = (none, c)) := by
  constructor
  · intro e hfind hexp
    have h1 : cacheGet c q now =
        (none, { c with
          entries := c.entries.filter (fun x => !(x.1 == q)) }) := by
      simp [cacheGet, hfind, hexp]
    refine ⟨by rw [h1], ?_⟩
    rw [h1]
    rw [List.find?_eq_none]
    intro x hx
    have hfx := (List.mem_filter.mp hx).2
    simp at hfx
    simp [hfx]
  · intro hfind
    simp [cacheGet, hfind]

/-- An empty first result page, used as a concrete witness value. -/
def wPage : ResultPage :=
  { results := [], total := 0, page := 1 }

/-- A concrete cache entry fetched at instant 0. -/
def wEntry : CacheEntry :=
  { page := wPage, fetchedAt := 0 }

/-- A concrete cache holding one entry for the query "ab", with TTL 1. -/
def wCache : ResultCache :=
  { entries := [("ab", wEntry)], ttl := 1, capacity := 10 }

/-- Applies `cache_expiry_miss` at a concrete cache: an entry fetched at 0
with TTL 1 queried at time 5 misses and is evicted, and a query with no
entry misses leaving the cache unchanged. -/
theorem cache_expiry_miss_witness :
    ((cacheGet wCache "ab" 5).1 = none ∧
      (cacheGet wCache "ab" 5).2.entries.find?
        (fun x => x.1 == "ab") = none) ∧
    cacheGet wCache "zz" 5 = (none, wCache) :=
  ⟨(cache_expiry_miss wCache "ab" 5).1 ("ab", wEntry)
      (by decide) (by decide),
    (cache_expiry_miss wCache "zz" 5).2 (by decide)⟩

/-- Claim C6: a query whose normalized length is below `minQueryLength`
issues no network call, mints no token (the sequencer state is untouched),
bypasses the cache (it is untouched too), and moves the state to the
cleared `Idle`. -/
theorem short_query_bypasses_network (c : AcController) (raw : String)
    (now : Nat) (h : (normalizeQuery raw).length < c.cfg.minQueryLength) :
    (handleQuery c raw now).2 = none ∧
    (handleQuery c raw now).1.seq = c.seq ∧
    (handleQuery c raw now).1.cache = c.cache ∧
    (handleQuery c raw now).1.sel.status = SelStatus.idle ∧
    (handleQuery c raw now).1.sel.selectedIndex = -1 := by
  simp [handleQuery, h, selStep]

/-- A concrete controller with default configuration and empty state. -/
def wController : AcController :=
  { cache := { entries := [], ttl := 60000, capacity := 100 },
    seq := { latestToken := 0, applied := none },
    sel := initSelectionState,
    cfg := { apiUrl := "/api/search", minQueryLength := 3, debounceMs := 300,
             maxResults := 10, cacheTtlMs := 60000, cacheCapacity := 100 } }

/-- Applies `short_query_bypasses_network` to the two-character input
`" aB "` (normalizing to "ab") against the default three-character
minimum. -/
theorem short_query_bypasses_network_witness :
    (handleQuery wController " aB " 0).2 = none ∧
    (handleQuery wController " aB " 0).1.seq = wController.seq ∧
    (handleQuery wController " aB " 0).1.cache = wController.cache ∧
    (handleQuery wController " aB " 0).1.sel.status = SelStatus.idle ∧
    (handleQuery wController " aB " 0).1.sel.selectedIndex = -1 :=
  short_query_bypasses_network wController " aB " 0 (by decide)

theorem dgRun_ticks_fires_of_lt (d : Nat) (q : String) {r k : Nat}
    (h : r < k) :
    dgRun ⟨d, some (q, r)⟩ (List.replicate k DEvent.tick) =
      (⟨d, none⟩, [q]) := by
  obtain ⟨m, rfl⟩ : ∃ m, k = r + 1 + m := ⟨k - r - 1, by omega⟩
  exact dgRun_ticks_fires d q r m

/-- Claim C7: a burst of submissions each within `debounceMs` of the
previous delivers only the final query of the burst downstream, exactly
once, when the timer finally elapses; an uninterrupted pending timer fires
exactly once with the latest submitted query; and after a cancellation the
cancelled timer never invokes the callback. -/
theorem debounce_collapses_bursts :
    (∀ (d : Nat) (b : List (Nat × String)) (q1 : String),
        (∀ p ∈ b, p.1 ≤ d) →
        dgRun ⟨d, some (q1, d)⟩
            (burstEvents b ++ List.replicate (d + 1) DEvent.tick) =
          (⟨d, none⟩, [lastQuery q1 b])) ∧
    (∀ (d : Nat) (q : String) (r m : Nat),
        dgRun ⟨d, some (q, r)⟩
            (List.replicate (r + 1 + m) DEvent.tick) =
          (⟨d, none⟩, [q])) ∧
    (∀ (g : DebounceGate) (m : Nat),
        dgRun (dgStep g DEvent.cancel).1 (List.replicate m DEvent.tick) =
          ({ g with pending := none }, [])) := by
  refine ⟨?_, ?_, ?_⟩
  · intro d b q1 hb
    rw [dgRun_append, dgRun_burst d b q1 hb,
      dgRun_ticks_fires_of_lt d (lastQuery q1 b) (Nat.lt_succ_self d)]
    simp
  · intro d q r m
    exact dgRun_ticks_fires d q r m
  · intro g m
    simpa [dgStep] using dgRun_ticks_none g.delay m

/-- Applies `debounce_collapses_bursts` to a concrete burst "a", "ab",
"abc" with gaps 1 and 2 ticks against delay 2: only "abc" is delivered,
exactly once. -/
theorem debounce_collapses_bursts_witness :
    dgRun ⟨2, some ("a", 2)⟩
        (burstEvents [(1, "ab"), (2, "abc")] ++
          List.replicate 3 DEvent.tick) =
      (⟨2, none⟩, [lastQuery "a" [(1, "ab"), (2, "abc")]]) :=
  debounce_collapses_bursts.1 2 [(1, "ab"), (2, "abc")] "a" (by decide)

/-- Claim C8: in `Loaded` with a non-empty result list of length n,
ArrowDown at the last index wraps to 0 and ArrowUp at 0 wraps to the last
index; at every other index ArrowDown moves the selection by +1 and ArrowUp
by −1. -/
theorem arrow_key_wraparound (s : SelectionState)
    (hst : s.status = SelStatus.loaded) (hne : s.results ≠ []) :
    (s.selectedIndex = (s.results.length : Int) - 1 →
        (selStep s SelEvent.arrowDown).selectedIndex = 0) ∧
    (s.selectedIndex = 0 →
        (selStep s SelEvent.arrowUp).selectedIndex =
          (s.results.length : Int) - 1) ∧
    (-1 ≤ s.selectedIndex → s.selectedIndex < (s.results.length : Int) - 1 →
        (selStep s SelEvent.arrowDown).selectedIndex =
          s.selectedIndex + 1) ∧
    (0 < s.selectedIndex →
        (selStep s SelEvent.arrowUp).selectedIndex =
          s.selectedIndex - 1) := by
  have hc : s.status = SelStatus.loaded ∧ s.results ≠ [] := ⟨hst, hne⟩
  refine ⟨?_, ?_, ?_, ?_⟩
  · intro h1
    simp only [selStep, if_pos hc]
    rw [if_pos (by omega)]
  · intro h1
    simp only [selStep, if_pos hc]
    rw [if_pos (by omega)]
  · intro h1 h2
    simp only [selStep, if_pos hc]
    rw [if_neg (by omega)]
  · intro h1
    simp only [selStep, if_pos hc]
    rw [if_neg (by omega)]

/-- A concrete loaded selection state with three results and the last index
selected. -/
def wLoaded : SelectionState :=
  { query := "abc",
    results := [{ id := "1", title := "Alpha", description := none,
                  image := none },
                { id := "2", title := "Beta", description := none,
                  image := none },
                { id := "3", title := "Gamma", description := none,
                  image := none }],
    status := SelStatus.loaded, selectedIndex := 2, errorMessage := none }

/-- Applies `arrow_key_wraparound` at a concrete three-result state:
ArrowDown from index 2 wraps to 0, ArrowUp from 0 wraps back to 2, and
ArrowDown from index 0 steps to 1. -/
theorem arrow_key_wraparound_witness :
    (selStep wLoaded SelEvent.arrowDown).selectedIndex = 0 ∧
    (selStep { wLoaded with selectedIndex := 0 }
        SelEvent.arrowUp).selectedIndex = 2 ∧
    (selStep { wLoaded with selectedIndex := 0 }
        SelEvent.arrowDown).selectedIndex = 1 := by
  have h1 := (arrow_key_wraparound wLoaded rfl (by decide)).1 (by decide)
  have h2 := (arrow_key_wraparound { wLoaded with selectedIndex := 0 } rfl
    (by decide)).2.1 (by decide)
  have h3 := (arrow_key_wraparound { wLoaded with selectedIndex := 0 } rfl
    (by decide)).2.2.1 (by decide) (by decide)
  refine ⟨h1, ?_, ?_⟩
  · rw [h2]; decide
  · rw [h3]; decide

/-- Claim C9: `seedDatabase` truncates with identity restart before
inserting, so for any two prior table states the final state is the same,
consists exactly of the rows read from seed.json in order, and assigns ids
restarting from 1. -/
theorem seedDatabase_independent_of_prior (t t2 : TableState)
    (items : List SeedItem) :
    seedDatabase t items = seedDatabase t2 items ∧
    (seedDatabase t items).rows = seedRowsFrom 1 items ∧
    (seedDatabase t items).rows.map (fun r => r.id) =
      List.range' 1 items.length := by
  have h1 := seedDatabase_rows t items
  have h2 := seedDatabase_rows t2 items
  refine ⟨h1.trans h2.symm, ?_, ?_⟩
  · rw [h1]
  · rw [h1]
    exact seedRowsFrom_map_id items 1

/-- Claim C10: every row `seedDatabase` inserts stores NULL in the role
column exactly when the item's role was the empty string (the only falsy
string), so no seeded row holds an empty-string role, while title, year and
type are inserted unchanged. -/
theorem seed_role_never_empty (t : TableState) (items : List SeedItem)
    (r : SearchItemRow) (hr : r ∈ (seedDatabase t items).rows) :
    r.role ≠ some "" ∧
      ∃ item ∈ items, r.title = item.title ∧ r.year = item.year ∧
        r.type = item.type ∧ r.role = roleOrNull item.role ∧
        (item.role = "" → r.role = none) := by
  rw [seedDatabase_rows t items] at hr
  obtain ⟨item, hmem, heq⟩ := seedRowsFrom_mem hr
  have hrole : r.role = roleOrNull item.role := by
    rw [heq]; rfl
  refine ⟨?_, item, hmem, ?_, ?_, ?_, hrole, ?_⟩
  · rw [hrole]; exact roleOrNull_ne_some_empty item.role
  · rw [heq]; rfl
  · rw [heq]; rfl
  · rw [heq]; rfl
  · intro hempty
    rw [hrole, hempty]
    rfl

/-- A concrete seed item with an empty role. -/
def wItemA : SeedItem :=
  { title := "A", year := some 1999, type := ItemType.film, role := "" }

/-- Two concrete seed items, one with an empty role and one with a
non-empty role. -/
def wItems : List SeedItem :=
  [wItemA,
   { title := "B", year := none, type := ItemType.television,
        role := "actor" }]

/-- A concrete non-empty prior table state, to exercise the truncation. -/
def wPriorTable : TableState :=
  { rows := [{ id := 9, title := "old", year := none,
               type := ItemType.video_game, role := some "x" }],
    nextId := 7 }

/-- Applies `seed_role_never_empty` to a concrete seeding run over a
non-empty prior table: the row seeded from the empty-role item "A" carries
no role. -/
theorem seed_role_never_empty_witness :
    (mkRow 1 wItemA).role ≠ some "" ∧
      ∃ item ∈ wItems,
        (mkRow 1 wItemA).title = item.title ∧
        (mkRow 1 wItemA).year = item.year ∧
        (mkRow 1 wItemA).type = item.type ∧
        (mkRow 1 wItemA).role = roleOrNull item.role ∧
        (item.role = "" → (mkRow 1 wItemA).role = none) :=
  seed_role_never_empty wPriorTable wItems _ (by decide)

end Autocomplete
